import Mathlib

/-!
Verification of the shipwright CLI front end (`shipwright/cli.py`).

The file shallowly embeds the pure decision logic of `main` and its helper
functions (`exit`, `memo`, `mk_show`, `highlight`, `switch`) and proves the
frozen claims about them.  External collaborators (docopt argument parsing,
git, the docker client, `shipwright.dependencies`, `shipwright.colors`,
`shipwright.fn`, and the `Shipwright` orchestrator class) are modelled as
abstract inputs or, where a claim depends on them, from the specification
(each such definition is marked `Modelled from the spec:`).

Conventions:
* Python `None`-able values are `Option`s.
* Python truthiness of strings (`None` and `""` are falsy) is modelled
  explicitly where the code relies on it (`pyOr`).
* Machine-level IO (printing, `sys.exit`) is reified in result types
  (`MainStep`, `SwitchResult`); the translation never performs effects.
-/

namespace Shipwright

/-- Python `a or b` for optional strings: the left operand wins when it is
truthy (present and non-empty); `None` and `""` fall through to `b`.  Used at
`cli.py` line 126, `arguments[DOCKER_HUB_ACCOUNT] or os.environ.get(SW_NAMESPACE)`. -/
def pyOr (a b : Option String) : Option String :=
  match a with
  | some s => if s = "" then b else some s
  | none => b

/-- Embedding of the namespace resolution in `main` (`cli.py` lines 120-131).
`file` is the outcome of `json.load(open(.shipwright.json))`: `none` when the
open raises `OSError`, `some v` when the file loads and its `namespace` entry
is `v` (`none` models JSON `null`).  When the file loads, `config` is the file
content and the command line and environment are never consulted; only in the
`OSError` branch is `config[namespace]` computed as
`arguments[DOCKER_HUB_ACCOUNT] or os.environ.get(SW_NAMESPACE)`. -/
def resolveNamespace (file : Option (Option String)) (cli env : Option String) :
    Option String :=
  match file with
  | some v => v
  | none => pyOr cli env

/-- The resolution order exactly as the specification words it (for claim C1
only): command-line argument first, then the config-file value, then the
`SW_NAMESPACE` environment variable — first present wins. -/
def specResolveNamespace (file : Option (Option String)) (cli env : Option String) :
    Option String :=
  match cli with
  | some c => some c
  | none =>
    match file with
    | some (some s) => some s
    | some none => env
    | none => env

/-- The message printed by `main` before exiting when no namespace was
resolved (`cli.py` lines 132-137). -/
def configErrorMsg : String :=
  "Please specify your docker hub account in\n" ++
  "the .shipwright.json config file,\n " ++
  "the command line or set SW_NAMESPACE.\n" ++
  "Run shipwright --help for more information."

/-- A CLI specifier as built by `main` (`cli.py` lines 180-186).  The
functions `exact`, `dependents`, `exclude`, `upto` live in
`shipwright.dependencies` (outside this file's source); `main` only
constructs and collects them, so they are embedded as tagged data. -/
inductive Specifier : Type where
  | exact (target : String)
  | dependents (target : String)
  | exclude (target : String)
  | upto (target : String)
deriving DecidableEq, Repr

/-- Embedding of the `specifiers = chain(...)` construction in `main`
(`cli.py` lines 180-186): `--exact` values map to `exact`, `--dependents` to
`dependents`, `--exclude` to `exclude`, `--upto` to `upto`, and bare
positional `TARGET` values also map to `upto`, concatenated in that order. -/
def buildSpecifiers (exacts deps excls uptos targets : List String) :
    List Specifier :=
  exacts.map Specifier.exact ++ deps.map Specifier.dependents ++
  excls.map Specifier.exclude ++ uptos.map Specifier.upto ++
  targets.map Specifier.upto

/-- Python `str.islower()` for the ASCII strings that occur as docopt keys:
true when the string has at least one cased (here: lowercase) character and
no uppercase character.  Used by the command-name selection at
`cli.py` line 192. -/
def pyIslower (s : String) : Bool :=
  s.data.any (fun c => c.isLower) && s.data.all (fun c => !c.isUpper)

/-- Modelled from the spec: `_0` comes from `shipwright.fn`, which is not
under `src/`.  The spec makes `build` the default subcommand, and `main`
writes `_0(candidates) or "build"`, so `_0` is first-element-or-`None`. -/
def _0 {α : Type} (l : List α) : Option α := l.head?

/-- The docopt argument keys remaining in `arguments` when `main` selects the
command name (`cli.py` lines 190-193): the usage string's subcommands and
options, minus the five specifier keys popped at lines 181-185.
`DOCKER_HUB_ACCOUNT` is listed because line 126 reads it from the dictionary;
argument parsing itself is an external collaborator. -/
def argKeys : List String :=
  ["--help", "-H", "build", "push", "--no-build", "purge", "DOCKER_HUB_ACCOUNT"]

/-- Embedding of the command-name selection (`cli.py` lines 190-193):
take the first key in dictionary iteration order that is `islower()` and
enabled, falling back to `"build"`.  Python dictionaries fix no iteration
order, so the order is a parameter. -/
def commandName (order : List String) (enabled : String → Bool) : String :=
  (_0 (order.filter (fun k => pyIslower k && enabled k))).getD "build"

/-- Modelled from the spec: the `Shipwright` orchestrator class is imported
from outside `src/`; the spec gives it exactly the subcommands `build`
(default), `push`, `purge`. -/
inductive Command : Type where
  | build
  | push
  | purge
deriving DecidableEq, Repr

/-- Modelled from the spec: `getattr(Shipwright(...), name)` succeeds exactly
for the three subcommand names `build`, `push`, `purge`; any other attribute
lookup fails (`AttributeError`), modelled as `none`. -/
def getattrShipwright (name : String) : Option Command :=
  if name = "build" then some Command.build
  else if name = "push" then some Command.push
  else if name = "purge" then some Command.purge
  else none

/-- Outcome of the decision part of `main`: either the early `exit(msg)`
(which prints `msg` and calls `sys.exit(1)`, `cli.py` lines 202-204), or the
dispatch of a selected command name over the collected specifiers.  Graph
construction and all build/push/purge work happen only inside the dispatched
command, i.e. only in the `run` constructor. -/
inductive MainStep : Type where
  | exitConfigError (msg : String) (code : Nat)
  | run (name : String) (cmd : Option Command) (specifiers : List Specifier)
deriving Repr

/-- Embedding of `main`'s control flow after argument parsing (`cli.py`
lines 120-198): resolve the namespace, exit with the configuration message
when it is `None`, otherwise collect the specifiers, select the command name
and look it up on the `Shipwright` object. -/
def mainRun (file : Option (Option String)) (cli env : Option String)
    (exacts deps excls uptos targets : List String)
    (order : List String) (enabled : String → Bool) : MainStep :=
  match resolveNamespace file cli env with
  | none => MainStep.exitConfigError configErrorMsg 1
  | some _ =>
    let name := commandName order enabled
    MainStep.run name (getattrShipwright name)
      (buildSpecifiers exacts deps excls uptos targets)

/-- An engine payload / event record as consumed by `switch` and `mk_show`
(`cli.py` lines 213-253): a loosely-typed dictionary whose keys may each be
absent.  `errorDetailMessage` stands for `rec[errorDetail][message]` (`none`
when either lookup would raise `KeyError`); `containerName` stands for
`rec[container].name`; `id`, `image`, `tag`, `event` are the flat keys the
code reads. -/
structure EngineRec : Type where
  stream : Option String := none
  status : Option String := none
  id : Option String := none
  error : Option String := none
  errorDetailMessage : Option String := none
  event : Option String := none
  image : Option String := none
  tag : Option String := none
  containerName : Option String := none
deriving DecidableEq, Repr

/-- Result of `switch` (`cli.py` lines 230-253): a formatted line, the
record passed through unchanged (the final `else` branch), or a raised
`KeyError`/`AttributeError` when the taken branch reads an absent key. -/
inductive SwitchResult : Type where
  | line (s : String)
  | raw (r : EngineRec)
  | exn
deriving DecidableEq, Repr

/-- Python `s.strip(c)` for a single strip character: drop every copy of `c`
from the left end and from the right end of the string.  `cli.py` line 233
applies it with `c` a newline. -/
def pyStripChar (c : Char) (s : String) : String :=
  String.mk (((s.data.dropWhile (fun x => x = c)).reverse.dropWhile
    (fun x => x = c)).reverse)

/-- Stripping exactly as the specification words it (for claim C5 only):
trailing newline characters removed, nothing else. -/
def stripTrailingNewlines (s : String) : String :=
  String.mk ((s.data.reverse.dropWhile (fun x => x = '\n')).reverse)

/-- The status line `switch` formats (`cli.py` lines 241-245):
`[STATUS] {id}: {status}{term}` where `id` defaults to the empty string and
`term` is a carriage return exactly when the status text starts with
`Downloading`. -/
def statusLine (id : Option String) (st : String) : String :=
  "[STATUS] " ++ id.getD "" ++ ": " ++ st ++
    (if st.startsWith "Downloading" then "\r" else "")

/-- Holds when the final character of the string is a carriage return: the
in-place-overwrite mark of claim C6. -/
def endsCR (s : String) : Prop := s.data.getLast? = some '\r'

/-- Embedding of `switch` (`cli.py` lines 230-253).  Branch order follows the
source: `stream` first, then `status`, then `error`, then the `tag` and
`removed` events, else the record itself.  A branch that reads a key the
record lacks is `exn` (the Python code would raise). -/
def switch (rec : EngineRec) : SwitchResult :=
  match rec.stream with
  | some s => SwitchResult.line (pyStripChar '\n' s)
  | none =>
  match rec.status with
  | some st => SwitchResult.line (statusLine rec.id st)
  | none =>
  match rec.error with
  | some _ =>
    match rec.errorDetailMessage with
    | some m => SwitchResult.line ("[ERROR] " ++ m ++ "\n")
    | none => SwitchResult.exn
  | none =>
  match rec.event with
  | none => SwitchResult.exn
  | some ev =>
    if ev = "tag" then
      match rec.containerName, rec.image, rec.tag with
      | some n, some i, some t =>
          SwitchResult.line ("Tagging " ++ i ++ " to " ++ n ++ ":" ++ t)
      | _, _, _ => SwitchResult.exn
    else if ev = "removed" then
      match rec.image, rec.tag with
      | some i, some t => SwitchResult.line ("Untagging " ++ i ++ ":" ++ t)
      | _, _ => SwitchResult.exn
    else SwitchResult.raw rec

/-- State shared by `memo` and `highlight` (`cli.py` lines 206-228): the
mutable default-argument dictionary `memos` (keyed by the memoized argument
only — the function is not part of the key) together with the position of
the global `colors = cycle(rainbow())` iterator.  `V` is the type of
memoized results. -/
structure MemoSt (A V : Type) : Type where
  table : List (A × V)
  colorPos : Nat
deriving Repr

/-- Dictionary lookup in the `memos` table: first binding for the key, as in
a Python dict (bindings are consed on insertion and keys are never
re-inserted). -/
def lookupTable {A V : Type} [DecidableEq A] (a : A) :
    List (A × V) → Option V
  | [] => none
  | (k, v) :: rest => if a = k then some v else lookupTable a rest

/-- Embedding of `memo` (`cli.py` lines 206-211): return the cached value
when `arg` is a key of the shared table, otherwise call `f` (threading the
color-cycle position, the only other global state `f` may touch), cache and
return its result. -/
def memo {A V : Type} [DecidableEq A] (f : A → Nat → V × Nat) (arg : A)
    (st : MemoSt A V) : V × MemoSt A V :=
  match lookupTable arg st.table with
  | some v => (v, st)
  | none =>
    let r := f arg st.colorPos
    (r.1, ⟨(arg, r.1) :: st.table, r.2⟩)

/-- A display handle as produced by `highlight` (`cli.py` lines 223-228):
the closure prints `color_fn(name) + " | " + msg`, so its observable identity
is the pair of the highlighted name and the color drawn from the cycle.
Modelled from the spec: `rainbow()` lives in `shipwright.colors`, outside
`src/`; the spec only requires consistent coloring, so the color is
identified by its position in the cyclic sequence when drawn. -/
def highlight (name : String) (colorPos : Nat) : (String × Nat) × Nat :=
  ((name, colorPos), colorPos + 1)

/-- One run of display-handle computation: `mk_show` calls
`memo(highlight, name)` once per observed name (`cli.py` lines 213-221);
`runMemo` folds that over a list of observed names, returning the handle for
each observation and the final shared state. -/
def runMemo (obs : List String) (st : MemoSt String (String × Nat)) :
    List (String × Nat) × MemoSt String (String × Nat) :=
  match obs with
  | [] => ([], st)
  | n :: rest =>
    let r := memo highlight n st
    let rr := runMemo rest r.2
    (r.1 :: rr.1, rr.2)

/-! ### Claim theorems -/

/-- Claim C1, counterexample: the claim says the command-line argument takes
precedence over the config-file value, but when the config file is readable
`main` uses its value and never consults the command line: with file value
`fromfile` and CLI value `fromcli` the code resolves `fromfile` while the
claimed order resolves `fromcli`. -/
theorem C1_counterexample :
    resolveNamespace (some (some "fromfile")) (some "fromcli") none =
      some "fromfile" ∧
    specResolveNamespace (some (some "fromfile")) (some "fromcli") none =
      some "fromcli" ∧
    (some "fromfile" : Option String) ≠ some "fromcli" :=
  ⟨rfl, rfl, by decide⟩

/-- Claim C1 (amended): when the config file is readable its `namespace`
value is used outright (command line and environment are never consulted);
only when reading the config file fails does the command-line argument take
precedence over the `SW_NAMESPACE` environment variable, an absent or empty
command-line value falling through to the environment. -/
theorem C1_namespace_resolution (file : Option String) (cli env : Option String) :
    resolveNamespace (some file) cli env = file ∧
    resolveNamespace none none env = env ∧
    (∀ c : String, c ≠ "" → resolveNamespace none (some c) env = some c) ∧
    resolveNamespace none (some "") env = env := by
  refine ⟨rfl, rfl, ?_, by simp [resolveNamespace, pyOr]⟩
  intro c hc
  simp [resolveNamespace, pyOr, hc]

/-- Claim C1 (amended), witness at concrete sources. -/
theorem C1_namespace_resolution_witness :
    resolveNamespace (some (some "ns1")) (some "ns2") (some "ns3") = some "ns1" ∧
    resolveNamespace none (some "ns2") (some "ns3") = some "ns2" :=
  ⟨(C1_namespace_resolution (some "ns1") (some "ns2") (some "ns3")).1,
   (C1_namespace_resolution (some "ns1") (some "ns2") (some "ns3")).2.2.1 "ns2"
     (by decide)⟩

/-- Claim C2: when the resolved namespace is `None`, `main` reaches the
`exit` helper with the configuration message — the process prints the message
and exits with status 1, a non-zero status — and no command is ever
dispatched (no `run` step, hence no graph construction or build/push/purge
work). -/
theorem C2_missing_namespace_exits (file : Option (Option String))
    (cli env : Option String) (exacts deps excls uptos targets : List String)
    (order : List String) (enabled : String → Bool)
    (h : resolveNamespace file cli env = none) :
    mainRun file cli env exacts deps excls uptos targets order enabled =
      MainStep.exitConfigError configErrorMsg 1 ∧
    (∀ name cmd specs,
      mainRun file cli env exacts deps excls uptos targets order enabled ≠
        MainStep.run name cmd specs) ∧
    (1 : Nat) ≠ 0 := by
  refine ⟨by simp [mainRun, h], ?_, by decide⟩
  intro name cmd specs
  simp [mainRun, h]

/-- Claim C2, witness: no namespace from any source. -/
theorem C2_missing_namespace_exits_witness :
    mainRun none none none [] [] [] [] [] argKeys (fun _ => false) =
      MainStep.exitConfigError configErrorMsg 1 :=
  (C2_missing_namespace_exits none none none [] [] [] [] [] argKeys
    (fun _ => false) rfl).1

/-- Claim C3: every bare positional `TARGET` becomes the specifier
`upto(target)`, and moving a bare target to `--upto` in the same invocation
yields the same multiset (hence the same set) of specifiers. -/
theorem C3_bare_target_upto (exacts deps excls uptos ts1 ts2 : List String)
    (t : String) :
    Specifier.upto t ∈ buildSpecifiers exacts deps excls uptos (ts1 ++ t :: ts2) ∧
    (buildSpecifiers exacts deps excls uptos (ts1 ++ t :: ts2)).Perm
      (buildSpecifiers exacts deps excls (uptos ++ [t]) (ts1 ++ ts2)) := by
  constructor
  · simp [buildSpecifiers]
  · unfold buildSpecifiers
    simp only [List.map_append, List.map_cons, List.map_nil, List.append_assoc]
    refine List.Perm.append_left _ (List.Perm.append_left _
      (List.Perm.append_left _ (List.Perm.append_left _ ?_)))
    exact List.perm_middle

/-- Claim C4: with none of `build`, `push`, `purge` enabled (and the docopt
usage pattern ruling out `--no-build` without `push` and `--help` reaching
this point), the selected command name is `build`, whatever the dictionary
iteration order, and its lookup on the `Shipwright` object succeeds. -/
theorem C4_default_build (order : List String) (enabled : String → Bool)
    (hkeys : ∀ k ∈ order, k ∈ argKeys)
    (hb : enabled "build" = false) (hp : enabled "push" = false)
    (hg : enabled "purge" = false)
    (hnb : enabled "--no-build" = true → enabled "push" = true)
    (hh : enabled "--help" = false) :
    commandName order enabled = "build" ∧
    getattrShipwright (commandName order enabled) = some Command.build := by
  have hnb2 : enabled "--no-build" = false := by
    cases h : enabled "--no-build"
    · rfl
    · rw [hnb h] at hp; cases hp
  have hfilter : order.filter (fun k => pyIslower k && enabled k) = [] := by
    rw [List.filter_eq_nil_iff]
    intro k hk
    have hmem := hkeys k hk
    simp only [argKeys, List.mem_cons, List.not_mem_nil, or_false] at hmem
    rcases hmem with rfl | rfl | rfl | rfl | rfl | rfl | rfl <;>
      simp [hb, hp, hg, hh, hnb2,
        (by decide : pyIslower "-H" = false),
        (by decide : pyIslower "DOCKER_HUB_ACCOUNT" = false)]
  have hname : commandName order enabled = "build" := by
    simp only [commandName]
    rw [hfilter]
    rfl
  exact ⟨hname, by rw [hname]; decide⟩

/-- Helper: the head of `dropWhile p` never satisfies `p`. -/
theorem dropWhile_head?_false {α : Type} (p : α → Bool) (l : List α) (x : α)
    (h : (l.dropWhile p).head? = some x) : p x = false := by
  have hh := List.head?_dropWhile_not p l
  rw [h] at hh
  exact hh

/-- Helper: `takeWhile` of an equality test yields a run of the tested
element. -/
theorem takeWhile_eq_replicate_of {α : Type} [DecidableEq α] (c : α)
    (l : List α) :
    l.takeWhile (fun x => x = c) =
      List.replicate (l.takeWhile (fun x => x = c)).length c := by
  apply List.eq_replicate_of_mem
  intro b hb
  exact of_decide_eq_true
    (List.mem_takeWhile_imp (p := fun x => decide (x = c)) hb)

/-- Helper: dropping a leading run of `c` splits the list into that run and
a remainder whose head is not `c`. -/
theorem dropWhile_leading_run {α : Type} [DecidableEq α] (c : α) (l : List α) :
    ∃ a : Nat,
      l = List.replicate a c ++ l.dropWhile (fun x => x = c) ∧
      (∀ x, (l.dropWhile (fun x => x = c)).head? = some x → x ≠ c) := by
  refine ⟨(l.takeWhile (fun x => x = c)).length, ?_, ?_⟩
  · rw [← takeWhile_eq_replicate_of, List.takeWhile_append_dropWhile]
  · intro x hx
    have hfalse := dropWhile_head?_false (fun x => x = c) l x hx
    exact of_decide_eq_false hfalse

/-- Helper: dropping a trailing run of `c` splits the list into a remainder
whose last element is not `c` and that run. -/
theorem dropWhile_trailing_run {α : Type} [DecidableEq α] (c : α) (l : List α) :
    ∃ b : Nat,
      l = (l.reverse.dropWhile (fun x => x = c)).reverse ++ List.replicate b c ∧
      (∀ x, ((l.reverse.dropWhile (fun x => x = c)).reverse).getLast? = some x →
        x ≠ c) := by
  obtain ⟨a, ha, hhead⟩ := dropWhile_leading_run c l.reverse
  refine ⟨a, ?_, ?_⟩
  · conv_lhs => rw [← List.reverse_reverse l, ha]
    rw [List.reverse_append, List.reverse_replicate]
  · intro x hx
    rw [List.getLast?_reverse] at hx
    exact hhead x hx

/-- Claim C5, counterexample: the stream text `"\nhi"` has no trailing
newline, so under the claim it should be returned unchanged, but `switch`
strips the leading newline as well (Python `strip` trims both ends). -/
theorem C5_counterexample :
    switch { stream := some "\nhi" } = SwitchResult.line "hi" ∧
    stripTrailingNewlines "\nhi" = "\nhi" ∧
    ("hi" : String) ≠ "\nhi" := by
  refine ⟨?_, ?_, by decide⟩ <;> decide

/-- Claim C5 (amended): for every payload with a `stream` key, `switch`
returns the stream text with newline characters removed from both ends and
removes nothing else: the original text is a run of newlines, then the
returned text — which neither starts nor ends with a newline — then another
run of newlines. -/
theorem C5_stream_strip (rec : EngineRec) (s : String)
    (h : rec.stream = some s) :
    switch rec = SwitchResult.line (pyStripChar '\n' s) ∧
    ∃ a b : Nat,
      s.data = List.replicate a '\n' ++ (pyStripChar '\n' s).data ++
        List.replicate b '\n' ∧
      (∀ x, (pyStripChar '\n' s).data.head? = some x → x ≠ '\n') ∧
      (∀ x, (pyStripChar '\n' s).data.getLast? = some x → x ≠ '\n') := by
  refine ⟨by simp [switch, h], ?_⟩
  obtain ⟨a, ha, hahead⟩ := dropWhile_leading_run '\n' s.data
  obtain ⟨b, hb, hblast⟩ :=
    dropWhile_trailing_run '\n' (s.data.dropWhile (fun x => x = '\n'))
  have hcore : (pyStripChar '\n' s).data =
      ((s.data.dropWhile (fun x => x = '\n')).reverse.dropWhile
        (fun x => x = '\n')).reverse := rfl
  refine ⟨a, b, ?_, ?_, ?_⟩
  · rw [List.append_assoc, hcore, ← hb]
    exact ha
  · intro x hx
    rw [hcore] at hx
    cases hcase : ((s.data.dropWhile (fun x => x = '\n')).reverse.dropWhile
        (fun x => x = '\n')).reverse with
    | nil => rw [hcase] at hx; cases hx
    | cons y t =>
      rw [hcase] at hx
      have hy : y = x := by
        simpa using hx
      have hl₁ : (s.data.dropWhile (fun x => x = '\n')).head? = some y := by
        rw [hb, hcase]
        rfl
      rw [← hy]
      exact hahead y hl₁
  · intro x hx
    rw [hcore] at hx
    exact hblast x hx

/-- Claim C5 (amended), witness: a stream text wearing newlines at both
ends. -/
theorem C5_stream_strip_witness :
    switch { stream := some "\nhi\n\n" } =
      SwitchResult.line (pyStripChar '\n' "\nhi\n\n") ∧
    ∃ a b : Nat,
      ("\nhi\n\n" : String).data = List.replicate a '\n' ++
        (pyStripChar '\n' "\nhi\n\n").data ++ List.replicate b '\n' ∧
      (∀ x, (pyStripChar '\n' "\nhi\n\n").data.head? = some x → x ≠ '\n') ∧
      (∀ x, (pyStripChar '\n' "\nhi\n\n").data.getLast? = some x → x ≠ '\n') :=
  C5_stream_strip { stream := some "\nhi\n\n" } "\nhi\n\n" rfl

/-- Claim C6: a status payload (no `stream` key — the payload kinds are
disjoint alternatives) is rendered as the `[STATUS]` line; the line is
terminated by a carriage return when the status text starts with
`Downloading`, and when it does not (and the status text itself does not end
in a carriage return) the line carries no carriage-return terminator. -/
theorem C6_status_mark (rec : EngineRec) (st : String)
    (h1 : rec.stream = none) (h2 : rec.status = some st) :
    switch rec = SwitchResult.line (statusLine rec.id st) ∧
    (st.startsWith "Downloading" → endsCR (statusLine rec.id st)) ∧
    (¬ st.startsWith "Downloading" → ¬ endsCR st →
      ¬ endsCR (statusLine rec.id st)) := by
  have hcr : ("\r" : String).data = ['\r'] := rfl
  have hcolon : (": " : String).data = [':', ' '] := rfl
  refine ⟨by simp [switch, h1, h2], ?_, ?_⟩
  · intro hd
    simp only [statusLine, endsCR, hd, if_true, String.data_append,
      List.getLast?_append, hcr]
    rfl
  · intro hnd hst habs
    have hnd2 : st.startsWith "Downloading" = false := by
      cases hds : st.startsWith "Downloading"
      · rfl
      · exact absurd hds hnd
    simp only [statusLine, endsCR, hnd2, Bool.false_eq_true, if_false,
      String.append_empty, String.data_append, List.getLast?_append,
      hcolon] at habs
    cases hlast : st.data.getLast? with
    | some y =>
      rw [hlast] at habs
      simp only [Option.or_some, Option.some.injEq] at habs
      exact hst (by rw [endsCR, hlast, habs])
    | none =>
      rw [hlast] at habs
      simp at habs

/-- Claim C6, witness: a download-progress status payload. -/
theorem C6_status_mark_witness :
    switch { status := some "Downloading 50 %", id := some "abc123" } =
      SwitchResult.line
        (statusLine (some "abc123") "Downloading 50 %") ∧
    (("Downloading 50 %" : String).startsWith "Downloading" →
      endsCR (statusLine (some "abc123") "Downloading 50 %")) ∧
    (¬ ("Downloading 50 %" : String).startsWith "Downloading" →
      ¬ endsCR "Downloading 50 %" →
      ¬ endsCR (statusLine (some "abc123") "Downloading 50 %")) :=
  C6_status_mark { status := some "Downloading 50 %", id := some "abc123" }
    "Downloading 50 %" rfl rfl

/-- Claim C7: an error payload (no `stream` or `status` key — the payload
kinds are disjoint alternatives) is wrapped into the distinct `[ERROR]` line
carrying the message extracted from the structured `errorDetail`. -/
theorem C7_error_event (rec : EngineRec) (e m : String)
    (h1 : rec.stream = none) (h2 : rec.status = none)
    (h3 : rec.error = some e) (h4 : rec.errorDetailMessage = some m) :
    switch rec = SwitchResult.line ("[ERROR] " ++ m ++ "\n") := by
  simp [switch, h1, h2, h3, h4]

/-- Claim C7, witness: a concrete engine error payload. -/
theorem C7_error_event_witness :
    switch { error := some "boom", errorDetailMessage := some "build failed" } =
      SwitchResult.line ("[ERROR] " ++ "build failed" ++ "\n") :=
  C7_error_event
    { error := some "boom", errorDetailMessage := some "build failed" }
    "boom" "build failed" rfl rfl rfl rfl

/-- Helper: after `memo f n`, the shared table binds `n` to the returned
value. -/
theorem memo_lookup_self {A V : Type} [DecidableEq A]
    (f : A → Nat → V × Nat) (n : A) (st : MemoSt A V) :
    lookupTable n (memo f n st).2.table = some (memo f n st).1 := by
  unfold memo
  cases h : lookupTable n st.table with
  | some v => simpa using h
  | none => simp [lookupTable]

/-- Helper: `memo` never changes an existing binding of the shared table. -/
theorem memo_preserves {A V : Type} [DecidableEq A]
    (f : A → Nat → V × Nat) (a k : A) (v : V) (st : MemoSt A V)
    (h : lookupTable k st.table = some v) :
    lookupTable k (memo f a st).2.table = some v := by
  unfold memo
  cases ha : lookupTable a st.table with
  | some w => simpa using h
  | none =>
    simp only [lookupTable]
    by_cases hk : k = a
    · subst hk
      rw [h] at ha
      cases ha
    · rw [if_neg hk]
      exact h

/-- Helper: `memo` returns a cached binding and leaves the state
untouched. -/
theorem memo_cached {A V : Type} [DecidableEq A]
    (f : A → Nat → V × Nat) (a : A) (v : V) (st : MemoSt A V)
    (h : lookupTable a st.table = some v) :
    memo f a st = (v, st) := by
  unfold memo
  rw [h]

/-- Helper: a display-handle run never changes an existing binding of the
shared table. -/
theorem runMemo_preserves (obs : List String) (k : String)
    (v : String × Nat) (st : MemoSt String (String × Nat))
    (h : lookupTable k st.table = some v) :
    lookupTable k (runMemo obs st).2.table = some v := by
  induction obs generalizing st with
  | nil => simpa using h
  | cons n rest ih =>
    simp only [runMemo]
    exact ih _ (memo_preserves highlight n k v st h)

/-- Helper: every handle returned during a run is the final table's binding
for the observed name. -/
theorem runMemo_result_lookup (obs : List String)
    (st : MemoSt String (String × Nat)) (i : Nat) (n : String)
    (h : String × Nat) (hn : obs[i]? = some n)
    (hh : (runMemo obs st).1[i]? = some h) :
    lookupTable n (runMemo obs st).2.table = some h := by
  induction obs generalizing st i with
  | nil => simp at hn
  | cons m rest ih =>
    cases i with
    | zero =>
      simp only [List.getElem?_cons_zero, Option.some.injEq] at hn
      subst hn
      simp only [runMemo, List.getElem?_cons_zero, Option.some.injEq] at hh
      subst hh
      exact runMemo_preserves rest m _ _ (memo_lookup_self highlight m st)
    | succ j =>
      simp only [List.getElem?_cons_succ] at hn
      simp only [runMemo, List.getElem?_cons_succ] at hh
      exact ih _ j hn hh

/-- Helper: a run returns one handle per observation. -/
theorem runMemo_length (obs : List String)
    (st : MemoSt String (String × Nat)) :
    (runMemo obs st).1.length = obs.length := by
  induction obs generalizing st with
  | nil => rfl
  | cons m rest ih => simp [runMemo, ih]

/-- Claim C8: in any run of display-handle computations, any two
observations of the same node/container name yield the same handle — the
handle memoized at the first observation is returned unchanged on every
subsequent observation of that name. -/
theorem C8_stable_handles (obs : List String)
    (st : MemoSt String (String × Nat)) (i j : Nat) (n : String)
    (hi : obs[i]? = some n) (hj : obs[j]? = some n) :
    (runMemo obs st).1[i]? = (runMemo obs st).1[j]? := by
  have hlen := runMemo_length obs st
  have hi' : i < obs.length := by
    by_contra hcon
    rw [List.getElem?_eq_none (Nat.le_of_not_lt hcon)] at hi
    cases hi
  have hj' : j < obs.length := by
    by_contra hcon
    rw [List.getElem?_eq_none (Nat.le_of_not_lt hcon)] at hj
    cases hj
  obtain ⟨vi, hvi⟩ : ∃ v, (runMemo obs st).1[i]? = some v :=
    ⟨_, List.getElem?_eq_getElem (by rw [hlen]; exact hi')⟩
  obtain ⟨vj, hvj⟩ : ∃ v, (runMemo obs st).1[j]? = some v :=
    ⟨_, List.getElem?_eq_getElem (by rw [hlen]; exact hj')⟩
  have ki := runMemo_result_lookup obs st i n vi hi hvi
  have kj := runMemo_result_lookup obs st j n vj hj hvj
  rw [ki] at kj
  rw [hvi, hvj]
  exact kj

/-- Claim C8, witness: the third observation of `alpha` returns the handle
of the first. -/
theorem C8_stable_handles_witness :
    (runMemo ["alpha", "beta", "alpha"] ⟨[], 0⟩).1[0]? =
      (runMemo ["alpha", "beta", "alpha"] ⟨[], 0⟩).1[2]? :=
  C8_stable_handles ["alpha", "beta", "alpha"] ⟨[], 0⟩ 0 2 "alpha" rfl rfl

/-- Claim C9: the memo table is keyed by the argument alone and shared by
every memoized function: right after `memo f a`, a call `memo g a` — for any
function `g` whatsoever — returns the value cached for `a` (the result of
`f`) and leaves the shared state untouched, so `g` is never invoked. -/
theorem C9_shared_memo_table {A V : Type} [DecidableEq A]
    (f g : A → Nat → V × Nat) (a : A) (st : MemoSt A V) :
    memo g a (memo f a st).2 = ((memo f a st).1, (memo f a st).2) :=
  memo_cached g a _ _ (memo_lookup_self f a st)

/-- Claim C9, witness: two distinct functions at the same argument share one
cache entry; the second call returns the first function's value and changes
nothing. -/
theorem C9_shared_memo_table_witness :
    memo (fun _ p => (p + 10, p + 1)) "k"
        (memo (fun _ p => (p * 2, p + 1)) "k"
          (⟨[], 5⟩ : MemoSt String Nat)).2 =
      ((memo (fun _ p => (p * 2, p + 1)) "k"
          (⟨[], 5⟩ : MemoSt String Nat)).1,
        (memo (fun _ p => (p * 2, p + 1)) "k"
          (⟨[], 5⟩ : MemoSt String Nat)).2) :=
  C9_shared_memo_table (fun _ p => (p * 2, p + 1)) (fun _ p => (p + 10, p + 1))
    "k" ⟨[], 5⟩

/-- Claim C10: the selection predicate also accepts the flag key
`--no-build`; with both `push` and `--no-build` enabled, a dictionary
iteration order listing `--no-build` first (the keys are exactly the
remaining docopt keys) selects `--no-build` rather than `push`, and the
attribute lookup of that name on the `Shipwright` object fails. -/
theorem C10_noBuild_selected :
    pyIslower "--no-build" = true ∧
    commandName
      ["--no-build", "--help", "-H", "build", "push", "purge",
        "DOCKER_HUB_ACCOUNT"]
      (fun k => k = "push" || k = "--no-build") = "--no-build" ∧
    ("--no-build" : String) ≠ "push" ∧
    getattrShipwright "--no-build" = none ∧
    List.Perm
      ["--no-build", "--help", "-H", "build", "push", "purge",
        "DOCKER_HUB_ACCOUNT"] argKeys :=
  ⟨by decide, by decide, by decide, by decide, by decide⟩

/-- Claim C4, witness: all flags disabled, keys in usage order. -/
theorem C4_default_build_witness :
    commandName argKeys (fun _ => false) = "build" ∧
    getattrShipwright (commandName argKeys (fun _ => false)) =
      some Command.build :=
  C4_default_build argKeys (fun _ => false) (fun _ hk => hk) rfl rfl rfl
    (fun h => h) rfl

end Shipwright
